import Mathlib

set_option maxRecDepth 100000

/-!
Shallow embedding of the Simulation_Model pipeline of the LDG repository:
grid-dimension inference and loading (scripts/visualize_grid.py and
analyze_dimensions.py), distribution analysis and threshold masking
(visualize_3d_grid_voxel.py and visualize_3d_grid_pyvista.py), and lattice
construction for resampling (visualize_3d_grid_pyvista.py).  Machine floats
are modelled as rationals; numpy array primitives (loadtxt, unique, shape,
linspace, meshgrid, min, max, median) are modelled by list functions with
the same observable behaviour.
-/

namespace LDG

/-- Model of a numpy array as produced by np.loadtxt: a single-column file
is squeezed to a one-dimensional array of shape (N,), a multi-column file
gives a two-dimensional rectangular row-major array. -/
inductive NDArray
  | one (vals : List ℚ)
  | two (rows : List (List ℚ))
deriving DecidableEq

/-- Errors raised by read_and_analyze_dat_file in
src/Simulation_Model/scripts/visualize_grid.py: accessing data.shape[1] on a
one-dimensional array raises IndexError (the shape tuple (N,) has no index 1),
and a non-cubic bare point count raises ValueError (the AmbiguousGridError of
the spec) after the factor list has been reported; the factor list is carried
here as the reported diagnostic payload. -/
inductive LoadError
  | indexError
  | ambiguousGrid (factors : List ℕ)
deriving DecidableEq

/-- Column j of the loaded two-dimensional data, data[:, j]. -/
def col (rows : List (List ℚ)) (j : ℕ) : List ℚ := rows.map (fun r => r.getD j 0)

/-- Number of columns, data.shape[1], of a rectangular two-dimensional array
(np.loadtxt always returns rectangular data, so the first row determines it). -/
def shape1 (rows : List (List ℚ)) : ℕ := (rows.headD []).length

/-- Model of len(np.unique(l)): np.unique returns the sorted distinct values
of l, and only its length is used by the dimension inference; sorting does
not change the number of distinct elements, so the model counts l.dedup. -/
def npUniqueCount (l : List ℚ) : ℕ := l.dedup.length

/-- Downward scan for the integer square root: the largest s below the given
bound with s * s ≤ n, and 0 when there is none. -/
def isqrtAux (n : ℕ) : ℕ → ℕ
  | 0 => 0
  | s + 1 => if (s + 1) * (s + 1) ≤ n then s + 1 else isqrtAux n s

/-- Model of int(np.sqrt(n)) for a natural n: the floor of the real square
root, that is the largest s with s * s ≤ n. -/
def isqrt (n : ℕ) : ℕ := isqrtAux n n

/-- Downward scan for the integer cube root: the largest d below the given
bound with d ^ 3 ≤ n, and 0 when there is none. -/
def icbrtAux (n : ℕ) : ℕ → ℕ
  | 0 => 0
  | d + 1 => if (d + 1) ^ 3 ≤ n then d + 1 else icbrtAux n d

/-- Model of int(np.cbrt(n)) for a natural n: the floor of the real cube
root, that is the largest d with d ^ 3 ≤ n.  The scan bound isqrt n
dominates the cube root, since d * d ≤ d ^ 3 ≤ n for that floor d. -/
def icbrt (n : ℕ) : ℕ := icbrtAux n (isqrt n)

/-- Factor scan of visualize_grid.py lines 31 to 35: i ranges from 1 to
int(np.sqrt(total_size)) inclusive, keeping each i with total_size % i == 0. -/
def smallFactors (n : ℕ) : List ℕ :=
  ((List.range (isqrt n)).map (fun i => i + 1)).filter (fun i => n % i == 0)

/-- No-coordinate branch of read_and_analyze_dat_file (visualize_grid.py
lines 27 to 44): compute and report the factors, guess dim = int(np.cbrt(N)),
accept only when dim ** 3 == N, otherwise raise ValueError. -/
def noCoordInfer (n : ℕ) : Except LoadError (ℕ × ℕ × ℕ) :=
  if icbrt n ^ 3 = n then .ok (icbrt n, icbrt n, icbrt n)
  else .error (.ambiguousGrid (smallFactors n))

/-- read_and_analyze_dat_file of src/Simulation_Model/scripts/visualize_grid.py.
On a one-dimensional array the column inspection data.shape[1] raises
IndexError before any branch is taken.  With at least 3 columns the grid
dimensions are the distinct-value counts of the three coordinate columns,
with no validation that nx*ny*nz matches the point count; the value column is
data[:, 3] when present and np.ones(len(data)) otherwise.  With fewer than 3
columns the row count is treated as a bare point count and the original array
is returned as the values. -/
def read_and_analyze_dat_file : NDArray → Except LoadError ((ℕ × ℕ × ℕ) × NDArray)
  | .one _ => .error .indexError
  | .two rows =>
    if 3 ≤ shape1 rows then
      .ok ((npUniqueCount (col rows 0), npUniqueCount (col rows 1),
            npUniqueCount (col rows 2)),
           if 4 ≤ shape1 rows then .one (col rows 3)
           else .one (List.replicate rows.length 1))
    else
      match noCoordInfer rows.length with
      | .ok dims => .ok (dims, .two rows)
      | .error e => .error e

/-- Projection of the loader result onto the returned values array. -/
def loadedValues (a : NDArray) : Except LoadError NDArray :=
  (read_and_analyze_dat_file a).map (fun r => r.2)

lemma le_isqrtAux (n d : ℕ) : ∀ b : ℕ, d ≤ b → d * d ≤ n → d ≤ isqrtAux n b := by
  intro b
  induction b with
  | zero => intro hb _; simpa [isqrtAux] using hb
  | succ s ih =>
    intro hb hd
    by_cases hc : (s + 1) * (s + 1) ≤ n
    · simpa [isqrtAux, hc] using hb
    · have hds : d ≤ s := by
        rcases Nat.eq_or_lt_of_le hb with h | h
        · exact absurd (h ▸ hd) hc
        · exact Nat.lt_succ_iff.mp h
      simpa [isqrtAux, hc] using ih hds hd

lemma isqrtAux_sq_le (n : ℕ) : ∀ b : ℕ, 0 < isqrtAux n b → isqrtAux n b * isqrtAux n b ≤ n := by
  intro b
  induction b with
  | zero => intro h; simp [isqrtAux] at h
  | succ s ih =>
    intro h
    by_cases hc : (s + 1) * (s + 1) ≤ n
    · simp [isqrtAux, hc]
    · simp only [isqrtAux, if_neg hc] at h ⊢
      exact ih h

lemma le_isqrt_iff (i n : ℕ) (hi : 0 < i) : i ≤ isqrt n ↔ i * i ≤ n := by
  constructor
  · intro h
    have hpos : 0 < isqrt n := lt_of_lt_of_le hi h
    exact le_trans (Nat.mul_le_mul h h) (isqrtAux_sq_le n n hpos)
  · intro h
    have hin : i ≤ n := le_trans (Nat.le_mul_of_pos_left i hi) h
    exact le_isqrtAux n i n hin h

lemma le_icbrtAux (n d : ℕ) : ∀ b : ℕ, d ≤ b → d ^ 3 ≤ n → d ≤ icbrtAux n b := by
  intro b
  induction b with
  | zero => intro hb _; simpa [icbrtAux] using hb
  | succ s ih =>
    intro hb hd
    by_cases hc : (s + 1) ^ 3 ≤ n
    · simpa [icbrtAux, hc] using hb
    · have hds : d ≤ s := by
        rcases Nat.eq_or_lt_of_le hb with h | h
        · exact absurd (h ▸ hd) hc
        · exact Nat.lt_succ_iff.mp h
      simpa [icbrtAux, hc] using ih hds hd

lemma icbrtAux_cube_le (n : ℕ) : ∀ b : ℕ, 0 < icbrtAux n b → icbrtAux n b ^ 3 ≤ n := by
  intro b
  induction b with
  | zero => intro h; simp [icbrtAux] at h
  | succ s ih =>
    intro h
    by_cases hc : (s + 1) ^ 3 ≤ n
    · simp [icbrtAux, hc]
    · simp only [icbrtAux, if_neg hc] at h ⊢
      exact ih h

lemma icbrt_cube (d : ℕ) : icbrt (d ^ 3) = d := by
  rcases Nat.eq_zero_or_pos d with h0 | hpos
  · subst h0; simp [icbrt, isqrt, isqrtAux, icbrtAux]
  · apply le_antisymm
    · rcases Nat.eq_zero_or_pos (icbrt (d ^ 3)) with h | h
      · exact h ▸ Nat.zero_le d
      · have hub : (icbrt (d ^ 3)) ^ 3 ≤ d ^ 3 := icbrtAux_cube_le _ _ h
        by_contra hlt
        push_neg at hlt
        exact absurd hub (not_le.mpr (Nat.pow_lt_pow_left hlt (by norm_num)))
    · have hdd : d * d ≤ d ^ 3 := by nlinarith
      have hsq : d ≤ isqrt (d ^ 3) := (le_isqrt_iff d (d ^ 3) hpos).mpr hdd
      exact le_icbrtAux _ d _ hsq (Nat.le_refl _)

example : icbrt 1000 = 10 := by decide
example : icbrt 999 = 9 := by decide
example : smallFactors 999 = [1, 3, 9, 27] := by decide

/-- Projection of the loader result onto the inferred grid dimensions. -/
def loadedDims (a : NDArray) : Except LoadError (ℕ × ℕ × ℕ) :=
  (read_and_analyze_dat_file a).map (fun r => r.1)

/-- Claim C2, counterexample: a 4-column point cloud with 2 points has
nx = ny = nz = 2 distinct coordinate values per axis, so nx*ny*nz = 8 differs
from the point count 2, yet the loader returns the dimensions successfully
instead of failing with AmbiguousGridError. -/
theorem C2_counterexample :
    read_and_analyze_dat_file (.two [[0,0,0,5],[1,1,1,6]]) =
      .ok ((2, 2, 2), .one [5, 6]) ∧
    2 * 2 * 2 ≠ ([[(0:ℚ),0,0,5],[1,1,1,6]] : List (List ℚ)).length :=
  ⟨rfl, by decide⟩

/-- Claim C2 (amended): when explicit x/y/z coordinate columns are present,
dimension inference returns (nx, ny, nz) equal to the counts of distinct
coordinate values along each axis, and it always succeeds: no check of
nx*ny*nz against the total point count is performed and no AmbiguousGridError
is raised on a mismatch. -/
theorem C2_coordinate_dims_are_distinct_counts (rows : List (List ℚ))
    (h : 3 ≤ shape1 rows) :
    loadedDims (.two rows) =
      .ok ((col rows 0).toFinset.card, (col rows 1).toFinset.card,
           (col rows 2).toFinset.card) := by
  simp only [loadedDims, read_and_analyze_dat_file, if_pos h, npUniqueCount,
    List.card_toFinset, Except.map]

/-- Witness for C2: a concrete 3-column cloud with 1, 2 and 2 distinct
coordinate values along the axes. -/
theorem C2_coordinate_dims_witness :
    loadedDims (.two [[0,0,0],[0,1,2]]) = .ok (1, 2, 2) :=
  (C2_coordinate_dims_are_distinct_counts [[0,0,0],[0,1,2]] (by decide)).trans (by rfl)

/-- Claim C3, counterexample: for 999 bare scalar values the code raises the
error, but the reported divisor list is [1, 3, 9, 27], not the claimed full
divisor set: 37 divides 999 and is not reported. -/
theorem C3_counterexample :
    noCoordInfer 999 = .error (.ambiguousGrid [1, 3, 9, 27]) ∧
    37 ∣ 999 ∧ 37 ∉ [1, 3, 9, 27] :=
  ⟨rfl, by norm_num, by decide⟩

/-- Claim C3 (amended): for every count N of bare scalar values that is not a
perfect cube, the inference raises the ambiguous-grid error reporting exactly
the divisors of N that do not exceed the integer square root of N (the loop
in visualize_grid.py only scans i = 1 .. int(sqrt(N))). -/
theorem C3_nonCube_reports_small_divisors (n : ℕ) (h : icbrt n ^ 3 ≠ n) :
    noCoordInfer n = .error (.ambiguousGrid (smallFactors n)) ∧
    ∀ i : ℕ, i ∈ smallFactors n ↔ 0 < i ∧ i * i ≤ n ∧ i ∣ n := by
  constructor
  · simp only [noCoordInfer, if_neg h]
  · intro i
    simp only [smallFactors, List.mem_filter, List.mem_map, List.mem_range,
      beq_iff_eq]
    constructor
    · rintro ⟨⟨j, hj, rfl⟩, hmod⟩
      refine ⟨Nat.succ_pos j, ?_, Nat.dvd_of_mod_eq_zero hmod⟩
      exact (le_isqrt_iff (j + 1) n (Nat.succ_pos j)).mp (Nat.succ_le_of_lt hj)
    · rintro ⟨h1, h2, k, rfl⟩
      have hsq : i ≤ isqrt (i * k) := (le_isqrt_iff i (i * k) h1).mpr h2
      exact ⟨⟨i - 1, by omega, by omega⟩, Nat.mul_mod_right i k⟩

/-- Witness for C3: at 999 the error carries the scanned factor list, and 3
is reported because it is a divisor not exceeding the square root. -/
theorem C3_nonCube_witness :
    noCoordInfer 999 = .error (.ambiguousGrid (smallFactors 999)) ∧
    (3 ∈ smallFactors 999 ↔ 0 < 3 ∧ 3 * 3 ≤ 999 ∧ 3 ∣ 999) :=
  ⟨(C3_nonCube_reports_small_divisors 999 (by decide)).1,
   (C3_nonCube_reports_small_divisors 999 (by decide)).2 3⟩

/-- Claim C4: for every bare count N of scalar values with no coordinates
that is a perfect cube d*d*d, the no-coordinate branch of the dimension
inference succeeds and returns (d, d, d). -/
theorem C4_cubic_count_inference (n d : ℕ) (h : n = d * d * d) :
    noCoordInfer n = .ok (d, d, d) := by
  have h3 : n = d ^ 3 := by rw [h]; ring
  subst h3
  simp [noCoordInfer, icbrt_cube]

/-- Witness for C4: 1000 bare scalar values give the 10 x 10 x 10 grid. -/
theorem C4_cubic_count_witness : noCoordInfer 1000 = .ok (10, 10, 10) :=
  C4_cubic_count_inference 1000 10 (by norm_num)

/-- Claim C9: a purely single-column input is loaded by np.loadtxt as a
one-dimensional array of shape (N,), and the column inspection data.shape[1]
then raises IndexError before any branch is taken, so the no-coordinate
branch is never reached from single-column input. -/
theorem C9_single_column_raises_indexerror (vals : List ℚ) :
    read_and_analyze_dat_file (.one vals) = .error .indexError := rfl

/-- Claim C10: when the loaded data has exactly 3 columns, the loader
returns a values array of np.ones(len(data)): all entries 1, with length
equal to the number of points. -/
theorem C10_three_columns_default_ones (rows : List (List ℚ))
    (h : shape1 rows = 3) :
    loadedValues (.two rows) = .ok (.one (List.replicate rows.length 1)) := by
  simp [loadedValues, read_and_analyze_dat_file, h, Except.map]

/-- Witness for C10: two points with 3 coordinate columns and no value
column receive the all-ones values array of length 2. -/
theorem C10_three_columns_witness :
    loadedValues (.two [[0,0,0],[1,2,3]]) = .ok (.one (List.replicate 2 1)) :=
  C10_three_columns_default_ones [[0,0,0],[1,2,3]] rfl

/-- Model of values.max() (np.max of a nonempty array): fold of binary max
over the array; 0 for the empty array, on which numpy raises instead. -/
def listMax : List ℚ → ℚ
  | [] => 0
  | a :: l => l.foldl max a

/-- Model of values.min(), as listMax. -/
def listMin : List ℚ → ℚ
  | [] => 0
  | a :: l => l.foldl min a

/-- Insertion of one value into a sorted list, used to model the sort inside
np.median. -/
def insertSorted (a : ℚ) : List ℚ → List ℚ
  | [] => [a]
  | b :: l => if a ≤ b then a :: b :: l else b :: insertSorted a l

/-- Insertion sort, modelling the sort performed by np.median and np.unique. -/
def sortList (l : List ℚ) : List ℚ := l.foldr insertSorted []

/-- Model of np.median: middle element of the sorted values for odd length,
mean of the two middle elements for even length. -/
def medianList (l : List ℚ) : ℚ :=
  if l.length % 2 = 1 then (sortList l).getD (l.length / 2) 0
  else ((sortList l).getD (l.length / 2 - 1) 0 + (sortList l).getD (l.length / 2) 0) / 2

/-- Count np.sum(values > threshold) of analyze_distribution
(visualize_3d_grid_pyvista.py line 28, identical in
visualize_3d_grid_voxel.py line 29): strict comparison. -/
def countAboveThreshold (values : List ℚ) (threshold : ℚ) : ℕ :=
  values.countP (fun v => decide (v > threshold))

/-- Statistics computed by analyze_distribution.  The code prints
percentage = (count / len(values)) * 100; the fraction count / len(values)
is its subexpression and is recorded alongside. -/
structure DistStats where
  minV : ℚ
  maxV : ℚ
  mean : ℚ
  median : ℚ
  countAbove : ℕ
  fraction : ℚ
  percentage : ℚ
  uniqueAbove : List ℚ
deriving DecidableEq

/-- analyze_distribution of visualize_3d_grid_pyvista.py lines 18 to 32 (the
voxel script carries the identical function).  The threshold is the local
variable set to 100 in the source; it is a parameter here since every
statistic is computed from it uniformly.  On an empty array values.min()
raises a ValueError before any division happens, modelled as none. -/
def analyze_distribution (values : List ℚ) (threshold : ℚ) : Option DistStats :=
  if values.isEmpty then none
  else some
    { minV := listMin values
      maxV := listMax values
      mean := values.sum / (values.length : ℚ)
      median := medianList values
      countAbove := countAboveThreshold values threshold
      fraction := (countAboveThreshold values threshold : ℚ) / (values.length : ℚ)
      percentage := (countAboveThreshold values threshold : ℚ) / (values.length : ℚ) * 100
      uniqueAbove := sortList ((values.filter (fun v => decide (v > threshold))).dedup) }

/-- Projection of the analyzer output onto count_above_threshold. -/
def analyzeCountAbove (values : List ℚ) (threshold : ℚ) : Option ℕ :=
  (analyze_distribution values threshold).map (fun s => s.countAbove)

/-- Projection of the analyzer output onto the fraction count / len(values). -/
def analyzeFraction (values : List ℚ) (threshold : ℚ) : Option ℚ :=
  (analyze_distribution values threshold).map (fun s => s.fraction)

/-- Boolean mask interpolated_values > threshold of
visualize_3d_grid_voxel.py lines 59 and 63 (strict comparison). -/
def maskList (values : List ℚ) (threshold : ℚ) : List Bool :=
  values.map (fun v => decide (v > threshold))

/-- Per-value opacity of visualize_3d_grid_voxel.py lines 60 to 71: the RGBA
colors array is initialised to zeros and only the masked entries
(value > threshold) receive alpha = (value - threshold) / (max_val - threshold)
with max_val = interpolated_values.max(); every other entry keeps alpha 0.
No clamp is applied anywhere in the source. -/
def opacityAt (values : List ℚ) (threshold v : ℚ) : ℚ :=
  if v > threshold then (v - threshold) / (listMax values - threshold) else 0

/-- The dense opacity channel: opacityAt applied to each value. -/
def opacityList (values : List ℚ) (threshold : ℚ) : List ℚ :=
  values.map (opacityAt values threshold)

/-- Opacity formula claimed by the spec (section 4.4), stated for comparison
with the code: clamp((value - threshold) / (max_value - threshold), 0, 1). -/
def specOpacityClamp (v threshold maxValue : ℚ) : ℚ :=
  max 0 (min 1 ((v - threshold) / (maxValue - threshold)))

/-- Model of np.linspace(a, b, n): n evenly spaced samples starting at a with
step (b - a) / (n - 1).  For n = 1 numpy returns the single point [a]; the
rational model gives the same list since its division by zero yields 0. -/
def linspace (a b : ℚ) (n : ℕ) : List ℚ :=
  (List.range n).map (fun i : ℕ => a + (i : ℚ) * ((b - a) / ((n : ℚ) - 1)))

/-- Lattice points of visualize_with_pyvista (visualize_3d_grid_pyvista.py
lines 41 to 51): meshgrid of the three linspace axes, flattened and stacked
into point triples.  The default meshgrid indexing iterates y outermost,
then x, then z. -/
def gridPoints (xs ys zs : List ℚ) : List (ℚ × ℚ × ℚ) :=
  ys.flatMap (fun b => xs.flatMap (fun a => zs.map (fun c => (a, b, c))))

/-- Scattered points np.column_stack((x, y, z)) of
visualize_3d_grid_pyvista.py line 49: the coordinate columns zipped into
point triples. -/
def columnStack3 (x y z : List ℚ) : List (ℚ × ℚ × ℚ) := x.zip (y.zip z)

/-- Lattice data produced by visualize_with_pyvista: the dimensions, origin
and spacing set on the pv.ImageData (lines 58 to 63) and the number of
lattice points handed to the interpolation (line 50). -/
structure RegularGridOut where
  dims : ℕ × ℕ × ℕ
  origin : ℚ × ℚ × ℚ
  spacing : ℚ × ℚ × ℚ
  npoints : ℕ
deriving DecidableEq

/-- Core pipeline of visualize_with_pyvista (visualize_3d_grid_pyvista.py
lines 34 to 63), with the sequencing of the source preserved:
x.min()/x.max() and the other bounds first (lines 36 to 38; on an empty
coordinate array the min reduction raises ValueError, modelled as none),
then the linspace axes and the meshgrid lattice (lines 41 to 51), then the
scipy.interpolate.griddata call (line 54), and only after it succeeds the
pv.ImageData dimensions, origin and spacing (lines 58 to 63).  griddata is
scipy library code external to the repository, so its outcome is a
parameter: some interpolated values on success, none when scipy itself
raises (a QhullError on degenerate scattered geometry, spec section 4.2);
that failure propagates and the lattice metadata is never built.  No
validation of the requested resolution exists anywhere in the function:
every value, including 1, reaches the interpolation and the spacing
denominator resolution - 1 as is (division by zero in the float code, 0 in
this rational model). -/
def visualize_with_pyvista
    (griddata : List (ℚ × ℚ × ℚ) → List ℚ → List (ℚ × ℚ × ℚ) → Option (List ℚ))
    (x y z values : List ℚ) (resolution : ℕ) : Option RegularGridOut :=
  if x.isEmpty ∨ y.isEmpty ∨ z.isEmpty then none
  else
    match griddata (columnStack3 x y z) values
        (gridPoints (linspace (listMin x) (listMax x) resolution)
                    (linspace (listMin y) (listMax y) resolution)
                    (linspace (listMin z) (listMax z) resolution)) with
    | none => none
    | some _ => some
        { dims := (resolution, resolution, resolution)
          origin := (listMin x, listMin y, listMin z)
          spacing := ((listMax x - listMin x) / ((resolution : ℚ) - 1),
                      (listMax y - listMin y) / ((resolution : ℚ) - 1),
                      (listMax z - listMin z) / ((resolution : ℚ) - 1))
          npoints := (gridPoints (linspace (listMin x) (listMax x) resolution)
                                 (linspace (listMin y) (listMax y) resolution)
                                 (linspace (listMin z) (listMax z) resolution)).length }

lemma le_foldl_max (l : List ℚ) : ∀ b : ℚ, b ≤ l.foldl max b := by
  induction l with
  | nil => intro b; exact le_refl b
  | cons c t ih => intro b; exact le_trans (le_max_left b c) (ih (max b c))

lemma mem_le_foldl_max (a : ℚ) (l : List ℚ) : ∀ b : ℚ, a ∈ l → a ≤ l.foldl max b := by
  induction l with
  | nil => intro b h; cases h
  | cons c t ih =>
    intro b h
    rcases List.mem_cons.mp h with rfl | h
    · exact le_trans (le_max_right b a) (le_foldl_max t (max b a))
    · exact ih (max b c) h

lemma le_listMax (a : ℚ) (l : List ℚ) (h : a ∈ l) : a ≤ listMax l := by
  cases l with
  | nil => cases h
  | cons c t =>
    rcases List.mem_cons.mp h with rfl | h
    · exact le_foldl_max t a
    · exact mem_le_foldl_max a t c h

lemma length_flatMap_const {α β : Type} (l : List α) (f : α → List β) (k : ℕ)
    (h : ∀ a ∈ l, (f a).length = k) : (l.flatMap f).length = l.length * k := by
  induction l with
  | nil => simp
  | cons a t ih =>
    simp only [List.flatMap_cons, List.length_append, List.length_cons]
    rw [h a (List.mem_cons_self a t), ih (fun x hx => h x (List.mem_cons_of_mem a hx))]
    ring

lemma length_linspace (a b : ℚ) (n : ℕ) : (linspace a b n).length = n := by
  simp only [linspace, List.length_map, List.length_range]

lemma length_gridPoints (xs ys zs : List ℚ) :
    (gridPoints xs ys zs).length = ys.length * (xs.length * zs.length) := by
  unfold gridPoints
  rw [length_flatMap_const _ _ (xs.length * zs.length)]
  intro b _
  rw [length_flatMap_const _ _ zs.length]
  intro a _
  simp

lemma count_true_maskList (values : List ℚ) (t : ℚ) :
    (maskList values t).count true = countAboveThreshold values t := by
  induction values with
  | nil => rfl
  | cons a l ih =>
    simp only [maskList, countAboveThreshold, List.map_cons, List.count_cons,
      List.countP_cons] at *
    by_cases h : a > t <;> simp [h, ih]

/-- Claim C5, counterexample: for the field [5] with threshold 10 the code
produces opacity 0 (the mask is empty), while the clamp formula of the claim
gives clamp((5-10)/(5-10), 0, 1) = 1, so the produced opacity does not equal
the claimed clamped expression. -/
theorem C5_counterexample :
    opacityAt [5] 10 5 = 0 ∧ specOpacityClamp 5 10 (listMax [5]) = 1 ∧
    (0 : ℚ) ≠ 1 := by
  refine ⟨by norm_num [opacityAt], ?_, by norm_num⟩
  norm_num [specOpacityClamp, listMax]

/-- Claim C5 (amended): every opacity value lies in [0,1]; opacity is 0
whenever the value is at most the threshold; and whenever the threshold is
strictly below the maximum value, the produced opacity coincides with the
clamp formula of the spec.  When the maximum does not exceed the threshold no
value passes the mask, so all opacities are 0 without any guarded branch: the
unclamped division is simply never used (and for threshold above the maximum
the clamp formula itself disagrees with the produced opacity). -/
theorem C5_opacity_bounds (values : List ℚ) (threshold v : ℚ)
    (hv : v ∈ values) :
    0 ≤ opacityAt values threshold v ∧ opacityAt values threshold v ≤ 1 ∧
    (v ≤ threshold → opacityAt values threshold v = 0) ∧
    (threshold < listMax values →
      opacityAt values threshold v =
        specOpacityClamp v threshold (listMax values)) := by
  have hmax : v ≤ listMax values := le_listMax v values hv
  by_cases hgt : v > threshold
  · have hden : 0 < listMax values - threshold := by linarith
    have hratio0 : 0 ≤ (v - threshold) / (listMax values - threshold) :=
      div_nonneg (by linarith) (le_of_lt hden)
    have hratio1 : (v - threshold) / (listMax values - threshold) ≤ 1 := by
      rw [div_le_one hden]; linarith
    refine ⟨?_, ?_, ?_, ?_⟩
    · simpa [opacityAt, hgt] using hratio0
    · simpa [opacityAt, hgt] using hratio1
    · intro hle; linarith
    · intro _
      simp only [opacityAt, if_pos hgt, specOpacityClamp]
      rw [min_eq_right hratio1, max_eq_right hratio0]
  · push_neg at hgt
    have h0 : opacityAt values threshold v = 0 := by
      simp [opacityAt, not_lt.mpr hgt]
    refine ⟨by rw [h0], by rw [h0]; norm_num, fun _ => h0, ?_⟩
    intro hmaxgt
    have hden : 0 < listMax values - threshold := by linarith
    have hr : (v - threshold) / (listMax values - threshold) ≤ 0 :=
      div_nonpos_of_nonpos_of_nonneg (by linarith) (by linarith)
    rw [h0, specOpacityClamp, min_eq_right (le_trans hr zero_le_one),
      max_eq_left hr]

/-- Witness for C5 at the field [50, 150, 250] with threshold 100 and value
150, where the opacity is 50/150 = 1/3 and matches the clamp formula. -/
theorem C5_opacity_witness :
    0 ≤ opacityAt [50, 150, 250] 100 150 ∧
    opacityAt [50, 150, 250] 100 150 ≤ 1 ∧
    ((150 : ℚ) ≤ 100 → opacityAt [50, 150, 250] 100 150 = 0) ∧
    (100 < listMax [50, 150, 250] →
      opacityAt [50, 150, 250] 100 150 =
        specOpacityClamp 150 100 (listMax [50, 150, 250])) :=
  C5_opacity_bounds [50, 150, 250] 100 150 (by decide)

/-- Claim C6: the mask is the strict comparison value > threshold (values
equal to the threshold are excluded), and the number of true mask entries
equals the count_above_threshold computed by analyze_distribution on the same
values with the same threshold. -/
theorem C6_mask_strict_and_cardinality (values : List ℚ) (threshold : ℚ)
    (i : ℕ) (hi : i < values.length) (hne : values ≠ []) :
    (maskList values threshold).get ⟨i, by simpa [maskList] using hi⟩ =
      decide (values.get ⟨i, hi⟩ > threshold) ∧
    analyzeCountAbove values threshold =
      some ((maskList values threshold).count true) := by
  constructor
  · simp [maskList]
  · simp [analyzeCountAbove, analyze_distribution,
      List.isEmpty_iff, hne, count_true_maskList]

/-- Witness for C6 at the field [50, 150, 250] with threshold 100, index 1. -/
theorem C6_mask_witness :
    (maskList [50, 150, 250] 100).get ⟨1, by decide⟩ =
      decide (([50, 150, 250] : List ℚ).get ⟨1, by decide⟩ > 100) ∧
    analyzeCountAbove [50, 150, 250] 100 =
      some ((maskList [50, 150, 250] 100).count true) :=
  C6_mask_strict_and_cardinality [50, 150, 250] 100 1 (by decide) (by decide)

/-- Claim C7, counterexample: the 8 corners of the unit cube (spec scenario
1), a nondegenerate scattered cloud on which the external Delaunay
interpolation succeeds (modelled by a successful griddata response), with
requested resolution 1.  The resolution is accepted: the single-point
lattice is produced, with spacing computed through the zero denominator
resolution - 1 (an inf/nan division in the float code, 0 in the rational
model), instead of the InvalidResolutionError the claim requires: no such
error exists anywhere in the source. -/
theorem C7_counterexample :
    visualize_with_pyvista (fun _ _ g => some (g.map (fun _ => (0 : ℚ))))
      [0, 1, 0, 1, 0, 1, 0, 1] [0, 0, 1, 1, 0, 0, 1, 1]
      [0, 0, 0, 0, 1, 1, 1, 1] [10, 0, 0, 0, 0, 0, 0, 0] 1 =
      some { dims := (1, 1, 1), origin := (0, 0, 0), spacing := (0, 0, 0),
             npoints := 1 } := by
  simp only [visualize_with_pyvista, RegularGridOut.mk.injEq]
  norm_num [linspace, gridPoints, listMin, listMax]

/-- Claim C7 (amended): the resampler performs no resolution validation.
Whenever the coordinate arrays are nonempty (otherwise the min reduction
raises first) and the external griddata call returns values, every requested
resolution, including the degenerate 1, is accepted: the result is the
lattice with dims set to the request, resolution cubed points, and the
spacing computed with denominator resolution - 1; no InvalidResolutionError
is ever raised, the only failure paths being the empty-array fault and the
interpolation failure of scipy itself. -/
theorem C7_no_resolution_validation
    (griddata : List (ℚ × ℚ × ℚ) → List ℚ → List (ℚ × ℚ × ℚ) → Option (List ℚ))
    (x y z values : List ℚ) (res : ℕ) (vals : List ℚ)
    (hx : x ≠ []) (hy : y ≠ []) (hz : z ≠ [])
    (hok : griddata (columnStack3 x y z) values
        (gridPoints (linspace (listMin x) (listMax x) res)
                    (linspace (listMin y) (listMax y) res)
                    (linspace (listMin z) (listMax z) res)) = some vals) :
    visualize_with_pyvista griddata x y z values res = some
      { dims := (res, res, res)
        origin := (listMin x, listMin y, listMin z)
        spacing := ((listMax x - listMin x) / ((res : ℚ) - 1),
                    (listMax y - listMin y) / ((res : ℚ) - 1),
                    (listMax z - listMin z) / ((res : ℚ) - 1))
        npoints := res * res * res } := by
  have hnp : (gridPoints (linspace (listMin x) (listMax x) res)
      (linspace (listMin y) (listMax y) res)
      (linspace (listMin z) (listMax z) res)).length = res * res * res := by
    rw [length_gridPoints, length_linspace, length_linspace, length_linspace]
    ring
  simp only [visualize_with_pyvista, List.isEmpty_iff, hx, hy, hz, hok, hnp,
    or_self, if_false]

/-- Witness for C7: the unit-cube corners with a successful interpolation
response and resolution 2 yield the 2 x 2 x 2 lattice of 8 points. -/
theorem C7_no_resolution_witness :
    visualize_with_pyvista (fun _ _ g => some (g.map (fun _ => (0 : ℚ))))
      [0, 1, 0, 1, 0, 1, 0, 1] [0, 0, 1, 1, 0, 0, 1, 1]
      [0, 0, 0, 0, 1, 1, 1, 1] [10, 0, 0, 0, 0, 0, 0, 0] 2 =
      some { dims := (2, 2, 2)
             origin := (listMin [0, 1, 0, 1, 0, 1, 0, 1],
                        listMin [0, 0, 1, 1, 0, 0, 1, 1],
                        listMin [0, 0, 0, 0, 1, 1, 1, 1])
             spacing := ((listMax [0, 1, 0, 1, 0, 1, 0, 1] -
                           listMin [0, 1, 0, 1, 0, 1, 0, 1]) / (((2 : ℕ) : ℚ) - 1),
                         (listMax [0, 0, 1, 1, 0, 0, 1, 1] -
                           listMin [0, 0, 1, 1, 0, 0, 1, 1]) / (((2 : ℕ) : ℚ) - 1),
                         (listMax [0, 0, 0, 0, 1, 1, 1, 1] -
                           listMin [0, 0, 0, 0, 1, 1, 1, 1]) / (((2 : ℕ) : ℚ) - 1))
             npoints := 2 * 2 * 2 } :=
  C7_no_resolution_validation (fun _ _ g => some (g.map (fun _ => (0 : ℚ))))
    [0, 1, 0, 1, 0, 1, 0, 1] [0, 0, 1, 1, 0, 0, 1, 1]
    [0, 0, 0, 0, 1, 1, 1, 1] [10, 0, 0, 0, 0, 0, 0, 0] 2 _
    (by decide) (by decide) (by decide) rfl

/-- Claim C8, counterexample: on an empty values array the analyzer faults
(values.min() raises before the division is reached) instead of returning a
fraction of 0. -/
theorem C8_counterexample : analyze_distribution [] 100 = none := rfl

/-- Claim C8 (amended): for nonempty values the analyzer returns
fraction_above_threshold = count_above_threshold / len(values), and that
fraction times len(values) recovers the count; an empty input is not handled
gracefully: the analyzer faults on the empty-array min reduction (and the
division count/len would divide by zero) rather than returning 0. -/
theorem C8_fraction_eq (values : List ℚ) (threshold : ℚ) (h : values ≠ []) :
    analyzeFraction values threshold =
      some ((countAboveThreshold values threshold : ℚ) /
        (values.length : ℚ)) ∧
    (countAboveThreshold values threshold : ℚ) / (values.length : ℚ) *
      (values.length : ℚ) = (countAboveThreshold values threshold : ℚ) := by
  constructor
  · simp [analyzeFraction, analyze_distribution,
      List.isEmpty_iff, h]
  · have hlen : ((values.length : ℚ)) ≠ 0 := by
      have : values.length ≠ 0 := by
        simpa [List.length_eq_zero] using h
      exact_mod_cast this
    exact div_mul_cancel₀ _ hlen

/-- Witness for C8 at the field [50, 150, 250] with threshold 100, where the
fraction is 2/3. -/
theorem C8_fraction_witness :
    analyzeFraction [50, 150, 250] 100 =
      some ((countAboveThreshold [50, 150, 250] 100 : ℚ) /
        (([50, 150, 250] : List ℚ).length : ℚ)) ∧
    (countAboveThreshold [50, 150, 250] 100 : ℚ) /
      (([50, 150, 250] : List ℚ).length : ℚ) *
      (([50, 150, 250] : List ℚ).length : ℚ) =
      (countAboveThreshold [50, 150, 250] 100 : ℚ) :=
  C8_fraction_eq [50, 150, 250] 100 (by decide)

/-- Point of 3-space for the interpolation model. -/
abbrev Vec3 := ℚ × ℚ × ℚ

/-- Modelled from the spec: the repository resamples by calling
scipy.interpolate.griddata with method "linear"
(visualize_3d_grid_pyvista.py line 54 and visualize_3d_grid_voxel.py line
55); the interpolation algorithm itself is scipy library code absent from
the repository.  Spec section 4.2 describes it as linear barycentric
interpolation over the Delaunay triangulation of the scattered points: a
query point p inside a tetrahedron with vertices v i is assigned the weights
w i of its barycentric representation, nonnegative, summing to 1 and
recombining to p. -/
def IsBarycentric (v : Fin 4 → Vec3) (w : Fin 4 → ℚ) (p : Vec3) : Prop :=
  (∑ i, w i) = 1 ∧ (∑ i, w i • v i) = p ∧ ∀ i, 0 ≤ w i

/-- Modelled from the spec: a tetrahedron of scattered samples supports the
interpolation only when nondegenerate, that is when its vertices are
affinely independent: only the trivial zero-sum weights combine to the zero
vector. -/
def AffIndep4 (v : Fin 4 → Vec3) : Prop :=
  ∀ c : Fin 4 → ℚ, (∑ i, c i) = 0 → (∑ i, c i • v i) = 0 → ∀ i, c i = 0

/-- Modelled from the spec: the value linear barycentric interpolation
assigns inside one tetrahedron, the weighted sum of the sample values y i
at the vertices. -/
def baryInterpValue (y : Fin 4 → ℚ) (w : Fin 4 → ℚ) : ℚ := ∑ i, w i * y i

/-- Claim C1: at a lattice point that coincides with an original scattered
sample, here a vertex v j of the nondegenerate tetrahedron containing the
point, linear barycentric interpolation reproduces that sample value
exactly: the barycentric weights of v j are forced to the indicator of j, so
the interpolated value is y j. -/
theorem C1_exact_interpolation_at_sample (v : Fin 4 → Vec3) (y w : Fin 4 → ℚ)
    (j : Fin 4) (hind : AffIndep4 v) (hb : IsBarycentric v w (v j)) :
    baryInterpValue y w = y j := by
  obtain ⟨hsum, hpt, _⟩ := hb
  have hc : ∀ i, w i - (if i = j then 1 else 0) = 0 := by
    apply hind
    · rw [Finset.sum_sub_distrib, hsum]
      simp [Finset.sum_ite_eq']
    · have h1 : (∑ i, (w i - if i = j then 1 else 0) • v i)
          = (∑ i, w i • v i) - ∑ i, (if i = j then (1:ℚ) else 0) • v i := by
        rw [← Finset.sum_sub_distrib]
        exact Finset.sum_congr rfl (fun i _ => sub_smul _ _ _)
      have h2 : (∑ i, (if i = j then (1:ℚ) else 0) • v i) = v j := by
        have h3 : ∀ i ∈ Finset.univ, (if i = j then (1:ℚ) else 0) • v i
            = if i = j then v i else 0 := by
          intro i _
          by_cases hij : i = j <;> simp [hij]
        rw [Finset.sum_congr rfl h3]
        simp [Finset.sum_ite_eq']
      rw [h1, hpt, h2, sub_self]
  have hw : ∀ i, w i = if i = j then 1 else 0 := fun i => sub_eq_zero.mp (hc i)
  calc baryInterpValue y w = ∑ i, (if i = j then (1:ℚ) else 0) * y i :=
        Finset.sum_congr rfl (fun i _ => by rw [hw i])
    _ = y j := by
        have h4 : ∀ i ∈ Finset.univ, (if i = j then (1:ℚ) else 0) * y i
            = if i = j then y i else 0 := by
          intro i _
          by_cases hij : i = j <;> simp [hij]
        rw [Finset.sum_congr rfl h4]
        simp [Finset.sum_ite_eq']

/-- Witness for C1: the unit tetrahedron with value 10 at the origin vertex
and 0 elsewhere; the lattice point at the origin receives exactly 10. -/
theorem C1_exact_interpolation_witness :
    baryInterpValue ![10, 0, 0, 0] ![1, 0, 0, 0] =
      (![10, 0, 0, 0] : Fin 4 → ℚ) 0 :=
  C1_exact_interpolation_at_sample ![(0,0,0), (1,0,0), (0,1,0), (0,0,1)]
    ![10, 0, 0, 0] ![1, 0, 0, 0] 0
    (by
      intro c h0 hv
      simp only [Fin.sum_univ_four, Matrix.cons_val_zero, Matrix.cons_val_one,
        Matrix.head_cons, Matrix.cons_val_two, Matrix.tail_cons,
        Matrix.cons_val_three, Prod.smul_mk, smul_eq_mul, Prod.mk_add_mk,
        Prod.mk_eq_zero, mul_zero, mul_one, add_zero, zero_add] at hv
      obtain ⟨e1, e2, e3⟩ := hv
      simp only [Fin.sum_univ_four] at h0
      intro i
      fin_cases i
      · show c 0 = 0; linarith
      · exact e1
      · exact e2
      · exact e3)
    (by
      refine ⟨by norm_num [Fin.sum_univ_four], ?_, ?_⟩
      · norm_num [Fin.sum_univ_four, Prod.smul_mk]
      · intro i; fin_cases i <;> norm_num)

end LDG
